import Mathlib

/-!
Verification of the StreetwiseAI retrieval core against its specification.

The development shallowly embeds the pipeline's pure logic:
* `citybrain/utils/chunking.py` — windowed tokenisation (`chunk_text`,
  `tokenize_length`, `attach_metadata`);
* `citybrain/retrieval/parser.py` — ordered-pattern intent parsing
  (`parse_scenario_query`, the first pattern of `PATTERNS`);
* `citybrain/retrieval/zoning_search.py` — corpus id→text map and the
  layered id-resolution fallback (`_load_zoning_chunks`, `_map_id_to_text`,
  `search_zoning_chunks`);
* `citybrain/retrieval/geospatial.py` — bounding-box spatial filters;
* `citybrain/retrieval/scenario.py` — packet assembly
  (`build_scenario_packet`).

External collaborators (the embedding service, the vector index, compiled
`re.Pattern` objects, `shapely` geometries, the filesystem) are modelled by
their interfaces: a vector query becomes an explicit list of matches, a
compiled pattern becomes its search function, a stored geometry becomes its
intersection predicate, and a data file becomes the list of records it holds.
Strings are treated as sequences of characters (ASCII-faithful: the
modelled inputs contain no characters where Python's and Lean's notions of
whitespace, digits, or lower-casing differ).
-/

/-- Splitting a character sequence on whitespace runs, keeping only the
non-empty words (accumulator holds the current word reversed). -/
def wsTokensAux : List Char → List Char → List (List Char)
  | [], acc => if acc = [] then [] else [acc.reverse]
  | c :: rest, acc =>
    if c.isWhitespace then
      if acc = [] then wsTokensAux rest [] else acc.reverse :: wsTokensAux rest []
    else wsTokensAux rest (c :: acc)

/-- Python `str.split()` with no separator: split on whitespace runs and
drop empty pieces.  Used by `chunk_text`'s fallback tokeniser and by the
parser's `normalize`. -/
def pySplit (s : String) : List String :=
  (wsTokensAux s.data []).map (fun w => String.mk w)

/-- `parser.normalize`: `" ".join(text.strip().split())` — collapse
whitespace runs to single spaces and trim (stripping first does not change
the result of `split()`).  Named `normalizeWs` because Mathlib already
declares a `normalize`. -/
def normalizeWs (text : String) : String :=
  String.intercalate " " (pySplit text)

/-- `chunking.tokenize_length` in the whitespace-surrogate branch
(`tiktoken` unavailable): `max(1, len(text.split()))`. -/
def tokenize_length (text : String) : Nat :=
  max 1 (pySplit text).length

/-- Python's adjustment of a slice stop index `j` for a list of length `n`:
negative indices count from the end, and the result is clamped to `[0, n]`. -/
def pyIdx (n : Nat) (j : Int) : Nat :=
  if j < 0 then (max 0 ((n : Int) + j)).toNat else min j.toNat n

/-- Python slice `ws[start:stop]` for a non-negative `start` and an
arbitrary (possibly negative) `stop`. -/
def pySlice (ws : List String) (start : Nat) (stop : Int) : List String :=
  (ws.drop start).take (pyIdx ws.length stop - start)

/-- The stride of `chunk_text`'s window loop: `step = max(1, max_tokens -
overlap_tokens)`, as a natural number (it is always at least 1). -/
def stepN (mt ov : Int) : Nat :=
  (max 1 (mt - ov)).toNat

/-- The `while start < len(words)` loop of `chunk_text` (whitespace-word
branch): at each iteration append `words[start:min(len(words), start +
max_tokens)]` and advance `start` by `max(1, max_tokens - overlap_tokens)`.
The loop always advances by at least one position, so it terminates. -/
def chunkLoop (ws : List String) (mt ov : Int) (start : Nat) : List (List String) :=
  if _h : start < ws.length then
    pySlice ws start (min (ws.length : Int) ((start : Int) + mt)) ::
      chunkLoop ws mt ov (start + stepN mt ov)
  else []
termination_by ws.length - start
decreasing_by
  have h1 : (1 : Int) ≤ max 1 (mt - ov) := le_max_left _ _
  have h2 : 1 ≤ stepN mt ov := by unfold stepN; omega
  omega

/-- The token windows produced by `chunk_text` on an already-tokenised
input, before the windows are re-joined with spaces. -/
def chunkWords (ws : List String) (mt ov : Int) : List (List String) :=
  chunkLoop ws mt ov 0

/-- `chunking.chunk_text` in the whitespace-word branch: tokenise with
`text.split()`, emit the loop's windows, and join each window with
single spaces. -/
def chunk_text (text : String) (mt ov : Int) : List String :=
  (chunkWords (pySplit text) mt ov).map (fun w => String.intercalate " " w)

/-- Values stored in an emitted metadata record (strings from the base
metadata and the text field, naturals for the derived counters). -/
inductive Val where
  | s (v : String)
  | n (v : Nat)
deriving DecidableEq

/-- A Python `dict` literal built from a key/value list: later occurrences
of a key override earlier ones; lookup returns the latest value. -/
def buildDict (ps : List (String × Val)) : String → Option Val :=
  fun k => (ps.reverse.find? (fun p => p.1 = k)).map (fun p => p.2)

/-- `chunking.attach_metadata`: for each chunk text `c` emit the dict
`{"text": c, **base_meta, "char_length": len(c), "token_estimate":
tokenize_length(c)}` — note that a `"text"` key in `base_meta` overrides
the chunk text, while the two derived counters override any homonymous
base keys. -/
def attach_metadata (chunks : List String) (base_meta : List (String × Val)) :
    List (String → Option Val) :=
  chunks.map (fun c =>
    buildDict ([("text", Val.s c)] ++ base_meta ++
      [("char_length", Val.n c.length), ("token_estimate", Val.n (tokenize_length c))]))

/-- A Python `m.groupdict()`: every named group of the pattern paired with
its captured value (`none` for a group that did not participate). -/
abbrev GD := List (String × Option String)

/-- `gd.get(k)` flattened: `none` when the key is absent or its value is
`None`; otherwise the captured string (possibly empty). -/
def lookupGD (gd : GD) (k : String) : Option String :=
  (gd.find? (fun p => p.1 = k)).bind (fun p => p.2)

/-- `k in gd`. -/
def hasKey (gd : GD) (k : String) : Bool :=
  (gd.find? (fun p => p.1 = k)).isSome

/-- Python truthiness of an optional string: `None` and `""` are falsy. -/
def truthy (o : Option String) : Bool :=
  match o with
  | some s => decide (s ≠ "")
  | none => false

/-- The result dict of `parser.parse_scenario_query`. -/
structure Intent where
  raw : String
  action : Option String
  street : Option String
  from_cross : Option String
  to_cross : Option String
  city : Option String
  feature : Option String
deriving DecidableEq

/-- `{k: normalize(v) if v else v for k, v in m.groupdict().items()}`
(normalising `""` is the identity, so `Option.map` is faithful). -/
def normGD (gd : GD) : GD :=
  gd.map (fun p => (p.1, p.2.map normalizeWs))

/-- Python `str.lower()`, character-wise (the library's byte-position
string-map does not reduce in the kernel, this char-level form does). -/
def strToLower (s : String) : String :=
  String.mk (s.data.map Char.toLower)

/-- The body of the `if m:` branch of `parse_scenario_query`: normalise the
captured groups, lower-case a truthy `action` capture, let a truthy
`feature` capture override `action` and populate `feature`, copy
`street`/`start`/`end`, and default the city when its capture is falsy. -/
def applyMatch (query : String) (gd0 : GD) : Intent :=
  let gd := normGD gd0
  let action0 : Option String :=
    if hasKey gd "action" && truthy (lookupGD gd "action")
    then (lookupGD gd "action").map strToLower else none
  let hasFeature := truthy (lookupGD gd "feature")
  { raw := query
    action := if hasFeature then (lookupGD gd "feature").map strToLower else action0
    feature := if hasFeature then (lookupGD gd "feature").map strToLower else none
    street := lookupGD gd "street"
    from_cross := lookupGD gd "start"
    to_cross := lookupGD gd "end"
    city := if truthy (lookupGD gd "city") then lookupGD gd "city" else some "New York, NY" }

/-- The intent returned when no pattern matched: only `raw` and the
default jurisdiction are populated. -/
def defaultIntent (query : String) : Intent :=
  { raw := query, action := none, street := none, from_cross := none,
    to_cross := none, city := some "New York, NY", feature := none }

/-- The `for pat in PATTERNS: ... break` scan: the group dict of the first
pattern whose `search` succeeds on the normalised query. -/
def firstMatch (patterns : List (String → Option GD)) (q : String) : Option GD :=
  patterns.findSome? (fun p => p q)

/-- `parser.parse_scenario_query`, parameterised by the ordered pattern
list; each compiled `re.Pattern` is modelled by its `search`-plus-
`groupdict` function on the normalised query. -/
def parse_scenario_query (patterns : List (String → Option GD)) (query : String) : Intent :=
  match firstMatch patterns (normalizeWs query) with
  | some gd => applyMatch query gd
  | none => defaultIntent query

/-- Regular-expression fragment sufficient for the parser's first pattern:
case-insensitive literals, greedy/lazy one-or-more over a character class,
named groups, greedy option, concatenation, end anchor. -/
inductive REc where
  | lit : List Char → REc
  | onePlus : Bool → (Char → Bool) → REc
  | grp : String → REc → REc
  | opt : REc → REc
  | cat : REc → REc → REc
  | eos : REc

/-- Case-insensitive character comparison (re.IGNORECASE on ASCII). -/
def ciEq (a b : Char) : Bool :=
  a.toLower = b.toLower

/-- Consume a case-insensitive literal from the front of the input. -/
def stripLit : List Char → List Char → Option (List Char)
  | [], s => some s
  | _ :: _, [] => none
  | p :: ps, c :: cs => if ciEq p c then stripLit ps cs else none

/-- Backtracking over candidate repeat lengths: try each length in order,
handing the rest of the input to the continuation. -/
def tryLens (s : List Char) (caps : List (String × String))
    (k : List Char → List (String × String) → Option (List (String × String))) :
    List Nat → Option (List (String × String))
  | [] => none
  | l :: ls =>
    match k (s.drop l) caps with
    | some r => some r
    | none => tryLens s caps k ls

/-- Backtracking matcher in continuation-passing style, mirroring the
Python `re` engine's order of exploration: greedy repeats try longest
first, lazy repeats shortest first, `?` tries with before without, and a
group records the characters it consumed. -/
def matchRE : REc → List Char → List (String × String) →
    (List Char → List (String × String) → Option (List (String × String))) →
    Option (List (String × String))
  | .lit p, s, caps, k =>
    match stripLit p s with
    | some s' => k s' caps
    | none => none
  | .onePlus lz cls, s, caps, k =>
    let run := (s.takeWhile cls).length
    tryLens s caps k (if lz then List.range' 1 run else (List.range' 1 run).reverse)
  | .grp name r, s, caps, k =>
    matchRE r s caps (fun s' caps' =>
      k s' (caps' ++ [(name, String.mk (s.take (s.length - s'.length)))]))
  | .opt r, s, caps, k =>
    match matchRE r s caps k with
    | some res => some res
    | none => k s caps
  | .cat a b, s, caps, k => matchRE a s caps (fun s' c' => matchRE b s' c' k)
  | .eos, s, caps, k => if s.isEmpty then k s caps else none

/-- Attempt a match anchored at the current position, accepting any
remainder (the pattern itself carries its `$` anchor when it has one). -/
def searchAt (r : REc) (s : List Char) : Option (List (String × String)) :=
  matchRE r s [] (fun _ caps => some caps)

/-- `pattern.search(q)`: try each start offset left to right and return
the captures of the leftmost successful match. -/
def reSearch (r : REc) : List Char → Option (List (String × String))
  | [] => searchAt r []
  | c :: rest =>
    match searchAt r (c :: rest) with
    | some caps => some caps
    | none => reSearch r rest

/-- `\w` (ASCII). -/
def isWordChar (c : Char) : Bool := c.isAlphanum || c = '_'

/-- The class `[A-Za-z0-9 .'-]` used for street names. -/
def streetChar (c : Char) : Bool :=
  c.isAlphanum || c = ' ' || c = '.' || c = '\'' || c = '-'

/-- `[^,]`. -/
def notComma (c : Char) : Bool := c ≠ ','

/-- `[^.]`. -/
def notDot (c : Char) : Bool := c ≠ '.'

/-- The first entry of `parser.PATTERNS`:
`(?P<action>pedestrianiz\w+)\s+(?P<street>[A-Za-z0-9 .'-]+?)\s+from\s+`
`(?P<start>[^,]+?)\s+to\s+(?P<end>[^,]+?)(?:\s+in\s+(?P<city>[^.]+))?$`
with `re.IGNORECASE`. -/
def pattern1RE : REc :=
  .cat (.grp "action" (.cat (.lit "pedestrianiz".data) (.onePlus false isWordChar)))
    (.cat (.onePlus false Char.isWhitespace)
      (.cat (.grp "street" (.onePlus true streetChar))
        (.cat (.onePlus false Char.isWhitespace)
          (.cat (.lit "from".data)
            (.cat (.onePlus false Char.isWhitespace)
              (.cat (.grp "start" (.onePlus true notComma))
                (.cat (.onePlus false Char.isWhitespace)
                  (.cat (.lit "to".data)
                    (.cat (.onePlus false Char.isWhitespace)
                      (.cat (.grp "end" (.onePlus true notComma))
                        (.cat (.opt (.cat (.onePlus false Char.isWhitespace)
                            (.cat (.lit "in".data)
                              (.cat (.onePlus false Char.isWhitespace)
                                (.grp "city" (.onePlus false notDot))))))
                          .eos)))))))))))

/-- The named groups of the first pattern, in declaration order. -/
def pattern1Groups : List String := ["action", "street", "start", "end", "city"]

/-- The first pattern of `parser.PATTERNS` as a search function producing
its `groupdict`. -/
def PATTERN1 (q : String) : Option GD :=
  (reSearch pattern1RE q.data).map (fun caps =>
    pattern1Groups.map (fun n => (n, (caps.find? (fun p => p.1 = n)).map (fun p => p.2))))

/-- The running example query of the spec's end-to-end test. -/
def broadwayQuery : String := "pedestrianize Broadway from 14th to 34th in NYC"

/-- The group dict the first pattern captures on `broadwayQuery`. -/
def broadwayGD : GD :=
  [("action", some "pedestrianize"), ("street", some "Broadway"),
    ("start", some "14th"), ("end", some "34th"), ("city", some "NYC")]

/-- The group dict captured when the optional city clause is absent. -/
def broadwayNoCityGD : GD :=
  [("action", some "pedestrianize"), ("street", some "Broadway"),
    ("start", some "14th"), ("end", some "34th"), ("city", none)]

/-- One parsed line of `zoning_chunks.jsonl`: the optional `id` field
(already rendered to a string, as the source applies `str(...)`) and the
optional `text` field. -/
structure ChunkData where
  id : Option String
  text : Option String
deriving DecidableEq

/-- The sentinel returned when no resolution strategy succeeds. -/
def sentinelText : String := "Text content not available"

/-- Assignment `m[k] = v` on a map modelled as a lookup function. -/
def upd (m : String → Option String) (k v : String) : String → Option String :=
  fun x => if x = k then some v else m x

/-- Processing of one corpus line by `_load_zoning_chunks`: a blank or
malformed line (`none`) is skipped, a record with falsy text is skipped,
otherwise the text is registered under the truthy explicit id (if any) and
always under the positional fallback id `zoning-{line_num}`. -/
def regLine (m : String → Option String) (ln : Nat) : Option ChunkData → (String → Option String)
  | none => m
  | some cd =>
    match cd.text with
    | none => m
    | some t =>
      if t = "" then m
      else
        let m1 := match cd.id with
          | some e => if e = "" then m else upd m e t
          | none => m
        upd m1 ("zoning-" ++ toString ln) t

/-- The `enumerate(f)` loop of `_load_zoning_chunks`. -/
def loadAux (ln : Nat) : List (Option ChunkData) → (String → Option String) → (String → Option String)
  | [], m => m
  | cd :: rest, m => loadAux (ln + 1) rest (regLine m ln cd)

/-- `zoning_search._load_zoning_chunks`, with the corpus file's parsed
lines passed explicitly (line numbers count every physical line, including
blank and malformed ones, exactly as `enumerate` does). -/
def load_zoning_chunks (lines : List (Option ChunkData)) : String → Option String :=
  loadAux 0 lines (fun _ => none)

/-- First maximal digit run of a character list (`re.search(r"(\d+)")`). -/
def firstDigitRunC : List Char → Option (List Char)
  | [] => none
  | c :: rest =>
    if c.isDigit then some (c :: rest.takeWhile Char.isDigit) else firstDigitRunC rest

/-- First maximal digit run of a string. -/
def firstDigitRun (s : String) : Option String :=
  (firstDigitRunC s.data).map (fun cs => String.mk cs)

/-- `(meta or {}).get(k)` for an optional metadata dict. -/
def metaGet (meta : Option (List (String × String))) (k : String) : Option String :=
  match meta with
  | none => none
  | some l => (l.find? (fun p => p.1 = k)).map (fun p => p.2)

/-- Python `a or b` on optional strings (`None` and `""` are falsy). -/
def pyOr (a b : Option String) : Option String :=
  match a with
  | some s => if s = "" then b else some s
  | none => b

/-- `(meta or {}).get("text") or (meta or {}).get("content")`. -/
def metaText (meta : Option (List (String × String))) : Option String :=
  pyOr (metaGet meta "text") (metaGet meta "content")

/-- `x or "Text content not available"` for the final fallback. -/
def orSentinel (o : Option String) : String :=
  match o with
  | some s => if s = "" then sentinelText else s
  | none => sentinelText

/-- Strategy 2 of the resolution chain: probe `zoning-{first digit run}`
when the id contains a digit run. -/
def digitCandidate (chunks_map : String → Option String) (cid : String) : Option String :=
  match firstDigitRun cid with
  | some d => chunks_map ("zoning-" ++ d)
  | none => none

/-- `zoning_search._map_id_to_text`: direct lookup, then the numeric
fallback probe, then the metadata `text`/`content` fields, then the
sentinel; a falsy id goes straight to the metadata fallback. -/
def map_id_to_text (chunk_id : Option String) (meta : Option (List (String × String)))
    (chunks_map : String → Option String) : String :=
  match chunk_id with
  | none => orSentinel (metaText meta)
  | some cid =>
    if cid = "" then orSentinel (metaText meta)
    else
      match chunks_map cid with
      | some t => t
      | none =>
        match digitCandidate chunks_map cid with
        | some t => t
        | none => orSentinel (metaText meta)

/-- A vector match as returned by the index query (`score` is passed
through untouched, so its type is a parameter). -/
structure PMatch (σ : Type) where
  id : Option String
  score : σ
  metadata : Option (List (String × String))

/-- One result item of `search_zoning_chunks`. -/
structure RItem (σ : Type) where
  id : Option String
  score : σ
  metadata : Option (List (String × String))
  text : String

/-- `zoning_search.search_zoning_chunks` after the external calls: the
query embedding and the Pinecone query are opaque services, so the match
list they produced is an input; the corpus file is passed as its parsed
lines.  Every match is mapped — never dropped — to an item carrying its
id, score, metadata and resolved text. -/
def search_zoning_chunks {σ : Type} (ms : List (PMatch σ))
    (corpus : List (Option ChunkData)) : List (RItem σ) :=
  ms.map (fun m =>
    { id := m.id, score := m.score, metadata := m.metadata,
      text := map_id_to_text m.id m.metadata (load_zoning_chunks corpus) })

/-- Does this corpus line write map key `k` when it is line `ln`? -/
def writesKey (cd : ChunkData) (ln : Nat) (k : String) : Bool :=
  truthy cd.text &&
    (k == "zoning-" ++ toString ln || (truthy cd.id && cd.id == some k))

/-- `writesKey` lifted to a possibly-skipped line. -/
def lineWrites (cd : Option ChunkData) (ln : Nat) (k : String) : Bool :=
  match cd with
  | some cd' => writesKey cd' ln k
  | none => false

/-- The (truthy) text a corpus line would register. -/
def lineText (cd : Option ChunkData) : Option String :=
  match cd with
  | some cd' =>
    match cd'.text with
    | some t => if t = "" then none else some t
    | none => none
  | none => none

/-- A one-record corpus whose record is written with explicit id
`zoning-7` (the spec's id-resolution example). -/
def exCorpus : List (Option ChunkData) :=
  [some ⟨some "zoning-7", some "Floor area ratio limits apply"⟩]

/-- A vector match with an id that resolves to nothing. -/
def exMatch : PMatch Nat :=
  { id := some "unrelated", score := 0, metadata := none }

/-- An area-of-interest bounding box: `{min_lat, max_lat, min_lon,
max_lon}` (rationals stand for the Python floats, whose arithmetic here is
only comparison). -/
structure Bounds where
  min_lat : ℚ
  max_lat : ℚ
  min_lon : ℚ
  max_lon : ℚ
deriving DecidableEq

/-- A traffic-count feature: a point geometry plus its attribute columns. -/
structure TrafficRecord where
  lat : ℚ
  lon : ℚ
  attrs : List (String × String)
deriving DecidableEq

/-- `geospatial.create_manhattan_broadway_bounds`. -/
def create_manhattan_broadway_bounds : Bounds :=
  { min_lat := 40.7300, max_lat := 40.7550, min_lon := -73.9950, max_lon := -73.9850 }

/-- `geospatial.get_traffic_counts_in_area` as written in the source: the
dataset load call is commented out and replaced by `gdf = None`, so the
`if gdf is None: return []` guard always fires and the function returns
`[]` for every input — the bbox construction and within-filter below the
guard are dead code.  The dataset parameter stands for the traffic-counts
file the dead code would have loaded. -/
def get_traffic_counts_in_area (_bounds : Bounds)
    (_dataset : Option (List TrafficRecord)) : List (List (String × String)) :=
  []

/-- Modelled from the spec: the traffic-counts filter §4.4 prescribes (and
the dead code of `get_traffic_counts_in_area`, lines 154–173, would
implement, had the loader call not been commented out and the bbox not
been built with transposed axes) — select the records whose point lies
strictly within the bounding box built from the four bounds, returning
each record's attributes without its geometry; a missing dataset yields
`[]`. -/
def specTrafficCountsInArea (bounds : Bounds) (dataset : Option (List TrafficRecord)) :
    List (List (String × String)) :=
  match dataset with
  | none => []
  | some rs =>
    (rs.filter (fun r =>
      decide (bounds.min_lon < r.lon) && decide (r.lon < bounds.max_lon) &&
      decide (bounds.min_lat < r.lat) && decide (r.lat < bounds.max_lat))).map
      (fun r => r.attrs)

/-- A zoning-district feature: its geometry is external (`shapely`), so it
is modelled by its bbox-intersection predicate, plus attribute columns. -/
structure DistrictRecord where
  geomIntersects : Bounds → Bool
  attrs : List (String × String)

/-- `geospatial.get_zoning_districts_in_area`: keep the districts whose
geometry intersects the bounding box and return their attributes without
the geometry column; a missing or unloadable dataset yields `[]`. -/
def get_zoning_districts_in_area (bounds : Bounds)
    (dataset : Option (List DistrictRecord)) : List (List (String × String)) :=
  match dataset with
  | none => []
  | some gdf => (gdf.filter (fun r => r.geomIntersects bounds)).map (fun r => r.attrs)

/-- A traffic point strictly inside the Manhattan Broadway bounds. -/
def insidePoint : TrafficRecord :=
  { lat := 40.74, lon := -73.99, attrs := [("volume", "1200")] }

/-- The assembled scenario packet (`scenario.build_scenario_packet`'s
result dict, flattened). -/
structure ScenarioPacket (σ : Type) where
  query : String
  parsed_components : Intent
  area_bounds : Bounds
  relevant_text_chunks : List (RItem σ)
  affected_zoning_districts : List (List (String × String))
  total_chunks_found : Nat
  total_districts_in_area : Nat
  traffic_count_locations : List (List (String × String))
  total_locations_in_area : Nat
  total_data_points : Nat
  data_types : List String

/-- `scenario.build_scenario_packet`: parse the query, run the semantic
search (external match list and corpus passed explicitly, as for
`search_zoning_chunks`), take the fixed Manhattan Broadway bounds, run
both spatial filters, and assemble the packet with its data summary. -/
def build_scenario_packet {σ : Type} (patterns : List (String → Option GD))
    (ms : List (PMatch σ)) (corpus : List (Option ChunkData))
    (districts : Option (List DistrictRecord)) (traffic : Option (List TrafficRecord))
    (query : String) : ScenarioPacket σ :=
  let parsed := parse_scenario_query patterns query
  let zoning_chunks := search_zoning_chunks ms corpus
  let area_bounds := create_manhattan_broadway_bounds
  let zoning_districts := get_zoning_districts_in_area area_bounds districts
  let traffic_counts := get_traffic_counts_in_area area_bounds traffic
  { query := query
    parsed_components := parsed
    area_bounds := area_bounds
    relevant_text_chunks := zoning_chunks
    affected_zoning_districts := zoning_districts
    total_chunks_found := zoning_chunks.length
    total_districts_in_area := zoning_districts.length
    traffic_count_locations := traffic_counts
    total_locations_in_area := traffic_counts.length
    total_data_points :=
      zoning_chunks.length + zoning_districts.length + traffic_counts.length
    data_types := ["zoning_text", "zoning_districts", "traffic_counts"] }

lemma stepN_pos (mt ov : Int) : 1 ≤ stepN mt ov := by
  have h1 : (1 : Int) ≤ max 1 (mt - ov) := le_max_left _ _
  unfold stepN
  omega

lemma pySlice_window (ws : List String) (start : Nat) (mt : Int)
    (hmt : 0 ≤ mt) (hs : start < ws.length) :
    pySlice ws start (min (ws.length : Int) ((start : Int) + mt)) =
      (ws.drop start).take mt.toNat := by
  unfold pySlice pyIdx
  have hj : ¬ (min (ws.length : Int) ((start : Int) + mt) < 0) := by omega
  rw [if_neg hj, List.take_eq_take]
  simp only [List.length_drop]
  omega

lemma chunkLoop_getElem? (ws : List String) (mt ov : Int) (hmt : 0 ≤ mt) :
    ∀ (k start : Nat), (chunkLoop ws mt ov start)[k]? =
      if start + k * stepN mt ov < ws.length
      then some ((ws.drop (start + k * stepN mt ov)).take mt.toNat) else none := by
  intro k
  induction k with
  | zero =>
    intro start
    by_cases h : start < ws.length
    · rw [chunkLoop, dif_pos h, pySlice_window ws start mt hmt h]
      simp [h]
    · rw [chunkLoop, dif_neg h]
      simp only [List.getElem?_nil]
      rw [if_neg (by omega)]
  | succ k ih =>
    intro start
    by_cases h : start < ws.length
    · rw [chunkLoop, dif_pos h]
      simp only [List.getElem?_cons_succ]
      rw [ih (start + stepN mt ov)]
      have he : start + stepN mt ov + k * stepN mt ov = start + (k + 1) * stepN mt ov := by
        ring
      rw [he]
    · rw [chunkLoop, dif_neg h]
      simp only [List.getElem?_nil]
      have h2 : ¬ (start + (k + 1) * stepN mt ov < ws.length) := by
        have := Nat.le_add_right start ((k + 1) * stepN mt ov)
        omega
      rw [if_neg h2]

lemma chunkWords_getElem? (ws : List String) (mt ov : Int) (hmt : 0 ≤ mt) (k : Nat) :
    (chunkWords ws mt ov)[k]? =
      if k * stepN mt ov < ws.length
      then some ((ws.drop (k * stepN mt ov)).take mt.toNat) else none := by
  have h := chunkLoop_getElem? ws mt ov hmt k 0
  simpa using h

lemma chunkLoop_length (ws : List String) (mt ov : Int) :
    ∀ (m start : Nat), ws.length - start ≤ m →
      (chunkLoop ws mt ov start).length =
        if ws.length ≤ start then 0 else (ws.length - start - 1) / stepN mt ov + 1 := by
  intro m
  induction m with
  | zero =>
    intro start h
    rw [chunkLoop, dif_neg (by omega), if_pos (by omega)]
    rfl
  | succ m ih =>
    intro start h
    have hstep := stepN_pos mt ov
    by_cases hs : start < ws.length
    · rw [chunkLoop, dif_pos hs]
      simp only [List.length_cons]
      rw [ih (start + stepN mt ov) (by omega)]
      rw [if_neg (show ¬ ws.length ≤ start by omega)]
      by_cases h2 : ws.length ≤ start + stepN mt ov
      · rw [if_pos h2, Nat.div_eq_of_lt (by omega)]
      · rw [if_neg h2]
        have he : ws.length - start - 1 =
            (ws.length - (start + stepN mt ov) - 1) + stepN mt ov := by omega
        rw [he, Nat.add_div_right _ (by omega)]
    · rw [chunkLoop, dif_neg hs, if_pos (by omega)]
      rfl

lemma chunkWords_length (ws : List String) (mt ov : Int) :
    (chunkWords ws mt ov).length = (ws.length + stepN mt ov - 1) / stepN mt ov := by
  have hstep := stepN_pos mt ov
  unfold chunkWords
  rw [chunkLoop_length ws mt ov ws.length 0 (by omega)]
  by_cases h0 : ws.length = 0
  · rw [if_pos (by omega), h0]
    symm
    exact Nat.div_eq_of_lt (by omega)
  · rw [if_neg (by omega)]
    have he : ws.length + stepN mt ov - 1 = (ws.length - 0 - 1) + stepN mt ov := by omega
    rw [he, Nat.add_div_right _ (by omega)]

lemma buildDict_append_right (ps qs : List (String × Val)) (k : String)
    (h : ∀ p ∈ qs, p.1 ≠ k) : buildDict (ps ++ qs) k = buildDict ps k := by
  unfold buildDict
  rw [List.reverse_append, List.find?_append]
  have hq : qs.reverse.find? (fun p => p.1 = k) = none := by
    rw [List.find?_eq_none]
    intro p hp
    simp [h p (List.mem_reverse.mp hp)]
  rw [hq]
  rfl

lemma buildDict_last (ps : List (String × Val)) (k : String) (v : Val) :
    buildDict (ps ++ [(k, v)]) k = some v := by
  unfold buildDict
  rw [List.reverse_append]
  simp [List.find?]

/-- **C10.** For every token list and all integer parameters `max_tokens`,
`overlap_tokens` — including `overlap_tokens ≥ max_tokens` and negative
values — `chunk_text` terminates with a finite chunk list: the effective
stride `max(1, max_tokens - overlap_tokens)` is at least 1, and the number
of produced chunks is exactly `⌈tokens / stride⌉` (here written with
natural division). -/
theorem chunkText_terminates_finite (text : String) (ws : List String) (mt ov : Int) :
    1 ≤ stepN mt ov ∧
    (chunkWords ws mt ov).length = (ws.length + stepN mt ov - 1) / stepN mt ov ∧
    (chunk_text text mt ov).length =
      ((pySplit text).length + stepN mt ov - 1) / stepN mt ov := by
  refine ⟨stepN_pos mt ov, chunkWords_length ws mt ov, ?_⟩
  unfold chunk_text
  rw [List.length_map, chunkWords_length]

/-- **C4, amended.** For every token list and parameters with
`0 ≤ overlap < max`: the stride is `max - overlap`; empty text yields no
chunks; `chunk_text` is the space-join of the token windows; every window
has at most `max` tokens; the `k`-th window starts at token position
`k·stride` (and a window exists exactly when that position is in range, so
the windows leave no gap); every token occurs in some window at its
expected offset; and a window of full length `max` shares exactly
`overlap` tokens with its successor.  The fullness qualification is
forced: once `max` overruns the end of the sequence every later window is
truncated even when it is not the final one, and consecutive truncated
windows share fewer than `overlap` tokens (exhibited at `max = 10`,
`overlap = 8`, nine tokens). -/
theorem chunkText_window_properties (ws : List String) (mt ov : Int)
    (h0 : 0 ≤ ov) (h1 : ov < mt) :
    stepN mt ov = (mt - ov).toNat
    ∧ chunk_text "" mt ov = []
    ∧ (∀ text, chunk_text text mt ov
        = (chunkWords (pySplit text) mt ov).map (fun w => String.intercalate " " w))
    ∧ (∀ w ∈ chunkWords ws mt ov, w.length ≤ mt.toNat)
    ∧ (∀ k : Nat, (chunkWords ws mt ov)[k]? =
        if k * stepN mt ov < ws.length
        then some ((ws.drop (k * stepN mt ov)).take mt.toNat) else none)
    ∧ (∀ i : Nat, i < ws.length → ∃ k j w, (chunkWords ws mt ov)[k]? = some w ∧
        w[j]? = ws[i]? ∧ i = k * stepN mt ov + j)
    ∧ (∀ k : Nat, k * stepN mt ov + mt.toNat ≤ ws.length →
        (k + 1) * stepN mt ov < ws.length →
        ∃ wk wk1, (chunkWords ws mt ov)[k]? = some wk ∧
          (chunkWords ws mt ov)[k + 1]? = some wk1 ∧
          wk.drop (stepN mt ov) = wk1.take ov.toNat ∧
          (wk.drop (stepN mt ov)).length = ov.toNat) := by
  have hmt : (0 : Int) ≤ mt := by omega
  have hstep : stepN mt ov = (mt - ov).toNat := by
    unfold stepN
    omega
  have hsmt : stepN mt ov ≤ mt.toNat := by omega
  have hspos := stepN_pos mt ov
  refine ⟨hstep, ?_, fun _ => rfl, ?_, fun k => chunkWords_getElem? ws mt ov hmt k, ?_, ?_⟩
  · have hps : pySplit "" = ([] : List String) := by decide
    unfold chunk_text
    rw [hps]
    unfold chunkWords
    rw [chunkLoop, dif_neg (by simp)]
    rfl
  · intro w hw
    rcases List.mem_iff_getElem?.mp hw with ⟨k, hk⟩
    rw [chunkWords_getElem? ws mt ov hmt k] at hk
    by_cases hc : k * stepN mt ov < ws.length
    · rw [if_pos hc] at hk
      have hw2 := Option.some.inj hk
      rw [← hw2, List.length_take]
      exact min_le_left _ _
    · rw [if_neg hc] at hk
      exact absurd hk (by simp)
  · intro i hi
    have hle : i / stepN mt ov * stepN mt ov ≤ i := Nat.div_mul_le_self i _
    have hmod : i % stepN mt ov < stepN mt ov := Nat.mod_lt _ (by omega)
    have hkey : i / stepN mt ov * stepN mt ov + i % stepN mt ov = i := by
      rw [Nat.mul_comm]
      exact Nat.div_add_mod i _
    refine ⟨i / stepN mt ov, i % stepN mt ov,
      (ws.drop (i / stepN mt ov * stepN mt ov)).take mt.toNat, ?_, ?_, ?_⟩
    · rw [chunkWords_getElem? ws mt ov hmt, if_pos (by omega)]
    · rw [List.getElem?_take_of_lt (by omega), List.getElem?_drop, hkey]
    · omega
  · intro k hk1 hk2
    have hone : (1 : Nat) ≤ mt.toNat := by omega
    have hx : (k + 1) * stepN mt ov = k * stepN mt ov + stepN mt ov := by ring
    set K := k * stepN mt ov with hK
    rw [hx] at hk2
    refine ⟨(ws.drop K).take mt.toNat,
      (ws.drop (K + stepN mt ov)).take mt.toNat, ?_, ?_, ?_, ?_⟩
    · rw [chunkWords_getElem? ws mt ov hmt, ← hK, if_pos (by omega)]
    · rw [chunkWords_getElem? ws mt ov hmt, hx, if_pos hk2]
    · rw [List.drop_take, List.drop_drop, List.take_take]
      have e1 : mt.toNat - stepN mt ov = ov.toNat := by omega
      have e2 : min ov.toNat mt.toNat = ov.toNat := by omega
      rw [e1, e2]
    · rw [List.drop_take]
      simp only [List.length_take, List.length_drop, List.drop_drop]
      omega

/-- Witness for C4: tokens `a b c d e`, `max_tokens = 3`, `overlap = 1`
(stride 2) — the second window is exactly `c d e`. -/
theorem chunkText_window_properties_witness :
    (0 : Int) ≤ 1 ∧ (1 : Int) < 3 ∧
    (chunkWords ["a", "b", "c", "d", "e"] 3 1)[1]? = some ["c", "d", "e"] := by
  refine ⟨by decide, by decide, ?_⟩
  obtain ⟨-, -, -, -, hwin, -, -⟩ :=
    chunkText_window_properties ["a", "b", "c", "d", "e"] 3 1 (by decide) (by decide)
  have h1 := hwin 1
  simpa [stepN] using h1

/-- **C6, counterexample.** `chunk_text` performs no validation of
`max_tokens`: called with `max_tokens = 0` it does not raise an
invalid-argument error (the source has no such check and no `raise`), it
returns one empty chunk per stride position. -/
theorem chunkText_zero_max_counterexample : chunk_text "a b" 0 100 = ["", ""] := by
  have h : pySplit "a b" = ["a", "b"] := by decide
  simp [chunk_text, chunkWords, h, chunkLoop, pySlice, pyIdx, stepN]
  decide

/-- **C6, amended.** With `max_tokens = 0` the function returns normally:
every produced token window is empty, hence every produced chunk is the
empty string (one per stride position over the token sequence). -/
theorem chunkText_zero_max_all_empty (ws : List String) (s : String) (ov : Int) :
    (chunkWords ws 0 ov).all (fun w => w.isEmpty) = true ∧
    (chunk_text s 0 ov).all (fun c => c == "") = true := by
  have hall : ∀ ws' : List String, (chunkWords ws' 0 ov).all (fun w => w.isEmpty) = true := by
    intro ws'
    rw [List.all_eq_true]
    intro w hw
    rcases List.mem_iff_getElem?.mp hw with ⟨k, hk⟩
    rw [chunkWords_getElem? ws' 0 ov le_rfl k] at hk
    by_cases hc : k * stepN 0 ov < ws'.length
    · rw [if_pos hc] at hk
      have hw2 := Option.some.inj hk
      simp [← hw2]
    · rw [if_neg hc] at hk
      exact absurd hk (by simp)
  refine ⟨hall ws, ?_⟩
  unfold chunk_text
  rw [List.all_eq_true]
  intro c hc
  rcases List.mem_map.mp hc with ⟨w, hw, rfl⟩
  have h := hall (pySplit s)
  rw [List.all_eq_true] at h
  have hwe : w = [] := by simpa [List.isEmpty_iff] using h w hw
  subst hwe
  decide

/-- **C7, counterexample.** `attach_metadata` builds
`{"text": c, **base_meta, "char_length": len(c), ...}`, so a `"text"` key
inside `base_meta` overrides the chunk text while `char_length` keeps
describing the chunk: with chunk `"ab"` and base metadata
`{"text": "xyz"}` the emitted record has text field `"xyz"` but
`char_length = 2 ≠ 3`. -/
theorem attachMetadata_override_counterexample :
    ((attach_metadata ["ab"] [("text", Val.s "xyz")]).map
      (fun r => (r "text", r "char_length"))) =
        [(some (Val.s "xyz"), some (Val.n 2))] ∧
    ("xyz".length ≠ 2) := by
  constructor
  · decide
  · decide

/-- **C7, amended.** Provided `base_meta` carries no `"text"` key, every
record emitted by `attach_metadata` holds the chunk text in its text
field, `char_length` equal to that text's length, and `token_estimate`
equal to the deterministic surrogate token count `tokenize_length` of that
text (the function is pure, so identical inputs give identical records). -/
theorem attachMetadata_fields (chunks : List String) (base : List (String × Val))
    (hbase : ∀ p ∈ base, p.1 ≠ "text") :
    ∀ (i : Nat) (c : String), chunks[i]? = some c →
      ∃ r, (attach_metadata chunks base)[i]? = some r ∧
        r "text" = some (Val.s c) ∧
        r "char_length" = some (Val.n c.length) ∧
        r "token_estimate" = some (Val.n (tokenize_length c)) := by
  intro i c hic
  refine ⟨buildDict ([("text", Val.s c)] ++ base ++
      [("char_length", Val.n c.length), ("token_estimate", Val.n (tokenize_length c))]),
    ?_, ?_, ?_, ?_⟩
  · unfold attach_metadata
    rw [List.getElem?_map, hic]
    rfl
  · rw [show [("text", Val.s c)] ++ base ++
        [("char_length", Val.n c.length), ("token_estimate", Val.n (tokenize_length c))] =
        [("text", Val.s c)] ++ (base ++
        [("char_length", Val.n c.length), ("token_estimate", Val.n (tokenize_length c))]) by
      simp]
    rw [buildDict_append_right]
    · simp [buildDict]
    · intro p hp
      rcases List.mem_append.mp hp with h | h
      · exact hbase p h
      · simp only [List.mem_cons, List.not_mem_nil, or_false] at h
        rcases h with rfl | rfl <;> simp
  · rw [show [("text", Val.s c)] ++ base ++
        [("char_length", Val.n c.length), ("token_estimate", Val.n (tokenize_length c))] =
        (([("text", Val.s c)] ++ base) ++ [("char_length", Val.n c.length)]) ++
          [("token_estimate", Val.n (tokenize_length c))] by simp]
    rw [buildDict_append_right]
    · exact buildDict_last _ _ _
    · intro p hp
      simp only [List.mem_singleton] at hp
      subst hp
      simp
  · rw [show [("text", Val.s c)] ++ base ++
        [("char_length", Val.n c.length), ("token_estimate", Val.n (tokenize_length c))] =
        (([("text", Val.s c)] ++ base ++ [("char_length", Val.n c.length)])) ++
          [("token_estimate", Val.n (tokenize_length c))] by simp]
    exact buildDict_last _ _ _

/-- Witness for C7 (amended): a one-chunk input with a `"source"` base key. -/
theorem attachMetadata_fields_witness :
    (∀ p ∈ [("source", Val.s "zoning")], p.1 ≠ "text") ∧
    (∃ r, (attach_metadata ["hi there"] [("source", Val.s "zoning")])[0]? = some r ∧
      r "text" = some (Val.s "hi there") ∧
      r "char_length" = some (Val.n "hi there".length) ∧
      r "token_estimate" = some (Val.n (tokenize_length "hi there"))) := by
  refine ⟨by decide, ?_⟩
  exact attachMetadata_fields ["hi there"] [("source", Val.s "zoning")]
    (by decide) 0 "hi there" (by decide)

/-- **C5.** If every pattern before `p` fails on the normalised query and
`p` matches with group dict `gd`, the parse result is exactly
`applyMatch query gd` — the patterns after `p` never affect it; moreover a
truthy `feature` capture (lower-cased) overrides `action` and populates
`feature`, and otherwise a truthy bare `action` capture is lower-cased
into `action`. -/
theorem parse_first_match_wins (pre post : List (String → Option GD))
    (p : String → Option GD) (query : String) (gd : GD)
    (hpre : ∀ p' ∈ pre, p' (normalizeWs query) = none)
    (hp : p (normalizeWs query) = some gd) :
    parse_scenario_query (pre ++ p :: post) query = applyMatch query gd
    ∧ (truthy (lookupGD (normGD gd) "feature") = true →
        (parse_scenario_query (pre ++ p :: post) query).action =
          (lookupGD (normGD gd) "feature").map strToLower
        ∧ (parse_scenario_query (pre ++ p :: post) query).feature =
          (lookupGD (normGD gd) "feature").map strToLower)
    ∧ (truthy (lookupGD (normGD gd) "feature") = false →
        (hasKey (normGD gd) "action" && truthy (lookupGD (normGD gd) "action")) = true →
        (parse_scenario_query (pre ++ p :: post) query).action =
          (lookupGD (normGD gd) "action").map strToLower) := by
  have hfm : firstMatch (pre ++ p :: post) (normalizeWs query) = some gd := by
    unfold firstMatch
    rw [List.findSome?_append]
    have hnone : pre.findSome? (fun p' => p' (normalizeWs query)) = none := by
      rw [List.findSome?_eq_none_iff]
      exact hpre
    rw [hnone]
    simp [List.findSome?_cons, hp]
  have hparse : parse_scenario_query (pre ++ p :: post) query = applyMatch query gd := by
    unfold parse_scenario_query
    rw [hfm]
  refine ⟨hparse, ?_, ?_⟩
  · intro hf
    rw [hparse]
    constructor <;> simp [applyMatch, hf]
  · intro hf ha
    rw [hparse]
    simp [applyMatch, hf, ha]

/-- Witness for C5: with the real first pattern of `PATTERNS` and the
spec's Broadway query, the first match determines the whole intent. -/
theorem parse_first_match_wins_witness :
    PATTERN1 (normalizeWs broadwayQuery) = some broadwayGD ∧
    parse_scenario_query [PATTERN1] broadwayQuery = applyMatch broadwayQuery broadwayGD := by
  refine ⟨by decide, ?_⟩
  exact (parse_first_match_wins [] [] PATTERN1 broadwayQuery broadwayGD
    (by intro p' h; exact absurd h (List.not_mem_nil p')) (by decide)).1

/-- **C8.** A query matched by no pattern parses to the default intent —
`raw` is the original query, `city` is `"New York, NY"`, every other field
null; and whenever the winning match's `city` capture is falsy the parsed
city also defaults to `"New York, NY"`. -/
theorem parse_no_match_defaults (patterns : List (String → Option GD)) (query : String) :
    ((∀ p ∈ patterns, p (normalizeWs query) = none) →
      parse_scenario_query patterns query = defaultIntent query
      ∧ (parse_scenario_query patterns query).raw = query
      ∧ (parse_scenario_query patterns query).city = some "New York, NY"
      ∧ (parse_scenario_query patterns query).action = none
      ∧ (parse_scenario_query patterns query).street = none
      ∧ (parse_scenario_query patterns query).from_cross = none
      ∧ (parse_scenario_query patterns query).to_cross = none
      ∧ (parse_scenario_query patterns query).feature = none)
    ∧ (∀ gd, firstMatch patterns (normalizeWs query) = some gd →
        truthy (lookupGD (normGD gd) "city") = false →
        (parse_scenario_query patterns query).city = some "New York, NY") := by
  constructor
  · intro h
    have hfm : firstMatch patterns (normalizeWs query) = none := by
      unfold firstMatch
      rw [List.findSome?_eq_none_iff]
      exact h
    have hp : parse_scenario_query patterns query = defaultIntent query := by
      unfold parse_scenario_query
      rw [hfm]
    refine ⟨hp, ?_, ?_, ?_, ?_, ?_, ?_, ?_⟩ <;> rw [hp] <;> rfl
  · intro gd hgd hcity
    unfold parse_scenario_query
    rw [hgd]
    simp [applyMatch, hcity]

/-- Witness for C8: `"hello"` matches nothing (empty pattern list), and the
Broadway query without an `in …` clause wins without a city capture. -/
theorem parse_no_match_defaults_witness :
    parse_scenario_query [] "hello" = defaultIntent "hello" ∧
    firstMatch [PATTERN1] (normalizeWs "pedestrianize Broadway from 14th to 34th") =
      some broadwayNoCityGD ∧
    truthy (lookupGD (normGD broadwayNoCityGD) "city") = false ∧
    (parse_scenario_query [PATTERN1] "pedestrianize Broadway from 14th to 34th").city =
      some "New York, NY" := by
  refine ⟨?_, by decide, by decide, ?_⟩
  · exact ((parse_no_match_defaults [] "hello").1
      (by intro p h; exact absurd h (List.not_mem_nil p))).1
  · exact (parse_no_match_defaults [PATTERN1] "pedestrianize Broadway from 14th to 34th").2
      broadwayNoCityGD (by decide) (by decide)

lemma regLine_lookup (m : String → Option String) (ln : Nat) (cd : Option ChunkData)
    (k : String) :
    regLine m ln cd k = if lineWrites cd ln k then lineText cd else m k := by
  cases cd with
  | none => rfl
  | some cd' =>
    cases htext : cd'.text with
    | none => simp [regLine, lineWrites, writesKey, truthy, lineText, htext]
    | some t =>
      by_cases ht : t = ""
      · simp [regLine, lineWrites, writesKey, truthy, lineText, htext, ht]
      · by_cases hfb : k = "zoning-" ++ toString ln
        · simp [regLine, lineWrites, writesKey, truthy, lineText, htext, ht, hfb, upd]
        · cases hid : cd'.id with
          | none =>
            simp [regLine, lineWrites, writesKey, truthy, lineText, htext, ht, hfb, hid, upd]
          | some e =>
            by_cases he : e = ""
            · simp [regLine, lineWrites, writesKey, truthy, lineText, htext, ht, hfb, hid,
                he, upd]
            · by_cases hek : e = k
              · subst hek
                simp [regLine, lineWrites, writesKey, truthy, lineText, htext, ht, hfb, hid,
                  he, upd]
              · simp [regLine, lineWrites, writesKey, truthy, lineText, htext, ht, hfb, hid,
                  he, hek, upd, Ne.symm hek]

lemma loadAux_no_write (lines : List (Option ChunkData)) :
    ∀ (ln : Nat) (m : String → Option String) (k : String),
      (∀ (i : Nat) (cd : Option ChunkData), lines[i]? = some cd →
        lineWrites cd (ln + i) k = false) →
      loadAux ln lines m k = m k := by
  induction lines with
  | nil => intro ln m k _; rfl
  | cons hd tl ih =>
    intro ln m k h
    have hhd : lineWrites hd ln k = false := by
      have := h 0 hd (by simp)
      simpa using this
    show loadAux (ln + 1) tl (regLine m ln hd) k = m k
    rw [ih (ln + 1) (regLine m ln hd) k ?later]
    · rw [regLine_lookup, hhd]
      simp
    · intro i cd hi
      have := h (i + 1) cd (by simpa using hi)
      simpa [Nat.add_assoc, Nat.add_comm 1 i] using this

lemma loadAux_write (lines : List (Option ChunkData)) :
    ∀ (ln : Nat) (m : String → Option String) (k : String) (i : Nat) (cd : Option ChunkData),
      lines[i]? = some cd → lineWrites cd (ln + i) k = true →
      (∀ (j : Nat) (cd' : Option ChunkData), i < j → lines[j]? = some cd' →
        lineWrites cd' (ln + j) k = false) →
      loadAux ln lines m k = lineText cd := by
  induction lines with
  | nil =>
    intro ln m k i cd hi
    simp at hi
  | cons hd tl ih =>
    intro ln m k i cd hi hw hlater
    cases i with
    | zero =>
      have hhd : hd = cd := by simpa using hi
      subst hhd
      show loadAux (ln + 1) tl (regLine m ln hd) k = lineText hd
      rw [loadAux_no_write tl (ln + 1) _ k ?later]
      · rw [regLine_lookup]
        have hw0 : lineWrites hd ln k = true := by simpa using hw
        rw [hw0]
        simp
      · intro j cd' hj
        have := hlater (j + 1) cd' (by omega) (by simpa using hj)
        simpa [Nat.add_assoc, Nat.add_comm 1 j] using this
    | succ i' =>
      show loadAux (ln + 1) tl (regLine m ln hd) k = lineText cd
      refine ih (ln + 1) (regLine m ln hd) k i' cd (by simpa using hi) ?_ ?_
      · have : ln + 1 + i' = ln + (i' + 1) := by omega
        rw [this]
        exact hw
      · intro j cd' hj hcd
        have := hlater (j + 1) cd' (by omega) (by simpa using hcd)
        simpa [Nat.add_assoc, Nat.add_comm 1 j] using this

/-- **C2.** The resolution strategies apply in order — direct map hit,
then the `zoning-{first digit run}` probe, then metadata, then the
sentinel; the corpus map registers a record's truthy text under its
fallback id `zoning-{line}` and under its truthy explicit id (subject to
no later line overwriting that key, Python dict semantics); and on the
spec's example corpus the record with explicit id `zoning-7` is found both
directly by `zoning-7` and by `vec_7` through the numeric fallback. -/
theorem zoning_id_resolution (cmap : String → Option String) (cid : String)
    (meta : Option (List (String × String))) (t : String)
    (lines : List (Option ChunkData)) (i : Nat) (cd : ChunkData) :
    (cid ≠ "" → cmap cid = some t → map_id_to_text (some cid) meta cmap = t)
    ∧ (cid ≠ "" → cmap cid = none → digitCandidate cmap cid = some t →
        map_id_to_text (some cid) meta cmap = t)
    ∧ (cid ≠ "" → cmap cid = none → digitCandidate cmap cid = none →
        map_id_to_text (some cid) meta cmap = orSentinel (metaText meta))
    ∧ (lines[i]? = some (some cd) → cd.text = some t → t ≠ "" →
        (∀ (j : Nat) (cd' : Option ChunkData), i < j → lines[j]? = some cd' →
          lineWrites cd' j ("zoning-" ++ toString i) = false) →
        load_zoning_chunks lines ("zoning-" ++ toString i) = some t)
    ∧ (∀ e, lines[i]? = some (some cd) → cd.text = some t → t ≠ "" →
        cd.id = some e → e ≠ "" →
        (∀ (j : Nat) (cd' : Option ChunkData), i < j → lines[j]? = some cd' →
          lineWrites cd' j e = false) →
        load_zoning_chunks lines e = some t)
    ∧ (load_zoning_chunks exCorpus "zoning-7" = some "Floor area ratio limits apply"
      ∧ load_zoning_chunks exCorpus "zoning-0" = some "Floor area ratio limits apply"
      ∧ map_id_to_text (some "zoning-7") none (load_zoning_chunks exCorpus) =
          "Floor area ratio limits apply"
      ∧ map_id_to_text (some "vec_7") none (load_zoning_chunks exCorpus) =
          "Floor area ratio limits apply") := by
  refine ⟨?_, ?_, ?_, ?_, ?_, by decide, by decide, by decide, by decide⟩
  · intro h1 h2
    simp [map_id_to_text, h1, h2]
  · intro h1 h2 h3
    simp [map_id_to_text, h1, h2, h3]
  · intro h1 h2 h3
    simp [map_id_to_text, h1, h2, h3]
  · intro hi htext ht hlater
    unfold load_zoning_chunks
    rw [loadAux_write lines 0 (fun _ => none) ("zoning-" ++ toString i) i (some cd) hi
      ?wr ?later]
    · simp [lineText, htext, ht]
    case wr => simp [lineWrites, writesKey, truthy, htext, ht]
    case later =>
      intro j cd' hj hcd
      rw [Nat.zero_add]
      exact hlater j cd' hj hcd
  · intro e hi htext ht hid he hlater
    unfold load_zoning_chunks
    rw [loadAux_write lines 0 (fun _ => none) e i (some cd) hi ?wr2 ?later2]
    · simp [lineText, htext, ht]
    case wr2 => simp [lineWrites, writesKey, truthy, htext, ht, hid, he]
    case later2 =>
      intro j cd' hj hcd
      rw [Nat.zero_add]
      exact hlater j cd' hj hcd

/-- Witness for C2: the resolution strategies and the map registrations
evaluated on the example corpus and on ids exercising each strategy. -/
theorem zoning_id_resolution_witness :
    map_id_to_text (some "zoning-7") none (load_zoning_chunks exCorpus) =
      "Floor area ratio limits apply"
    ∧ map_id_to_text (some "vec_7") none (load_zoning_chunks exCorpus) =
      "Floor area ratio limits apply"
    ∧ map_id_to_text (some "unrelated") none (load_zoning_chunks exCorpus) = sentinelText
    ∧ load_zoning_chunks exCorpus ("zoning-" ++ toString 0) =
      some "Floor area ratio limits apply"
    ∧ load_zoning_chunks exCorpus "zoning-7" = some "Floor area ratio limits apply" := by
  have hlater : ∀ (j : Nat) (cd' : Option ChunkData), 0 < j → exCorpus[j]? = some cd' →
      lineWrites cd' j ("zoning-" ++ toString 0) = false := by
    intro j cd' hj hcd
    rcases j with _ | j
    · omega
    · simp [exCorpus] at hcd
  have hlater2 : ∀ (j : Nat) (cd' : Option ChunkData), 0 < j → exCorpus[j]? = some cd' →
      lineWrites cd' j "zoning-7" = false := by
    intro j cd' hj hcd
    rcases j with _ | j
    · omega
    · simp [exCorpus] at hcd
  refine ⟨?_, ?_, ?_, ?_, ?_⟩
  · exact (zoning_id_resolution (load_zoning_chunks exCorpus) "zoning-7" none
      "Floor area ratio limits apply" exCorpus 0
      ⟨some "zoning-7", some "Floor area ratio limits apply"⟩).1 (by decide) (by decide)
  · exact (zoning_id_resolution (load_zoning_chunks exCorpus) "vec_7" none
      "Floor area ratio limits apply" exCorpus 0
      ⟨some "zoning-7", some "Floor area ratio limits apply"⟩).2.1
      (by decide) (by decide) (by decide)
  · exact ((zoning_id_resolution (load_zoning_chunks exCorpus) "unrelated" none
      "Floor area ratio limits apply" exCorpus 0
      ⟨some "zoning-7", some "Floor area ratio limits apply"⟩).2.2.1
      (by decide) (by decide) (by decide)).trans (by decide)
  · exact (zoning_id_resolution (load_zoning_chunks exCorpus) "unused" none
      "Floor area ratio limits apply" exCorpus 0
      ⟨some "zoning-7", some "Floor area ratio limits apply"⟩).2.2.2.1
      (by decide) (by decide) (by decide) hlater
  · exact (zoning_id_resolution (load_zoning_chunks exCorpus) "unused" none
      "Floor area ratio limits apply" exCorpus 0
      ⟨some "zoning-7", some "Floor area ratio limits apply"⟩).2.2.2.2.1
      "zoning-7" (by decide) (by decide) (by decide) (by decide) (by decide) hlater2

/-- **C9.** `search_zoning_chunks` returns exactly one item per vector
match, in order, each carrying the match's id, score and metadata; a match
whose id resolves to nothing is still returned, with the sentinel text —
the function is total, so resolution failures never raise. -/
theorem search_zoning_chunks_total {σ : Type} (ms : List (PMatch σ))
    (corpus : List (Option ChunkData)) :
    (search_zoning_chunks ms corpus).length = ms.length
    ∧ (∀ i : Nat, (search_zoning_chunks ms corpus)[i]? =
        (ms[i]?).map (fun m =>
          { id := m.id, score := m.score, metadata := m.metadata,
            text := map_id_to_text m.id m.metadata (load_zoning_chunks corpus) }))
    ∧ (∀ (i : Nat) (m : PMatch σ), ms[i]? = some m →
        map_id_to_text m.id m.metadata (load_zoning_chunks corpus) = sentinelText →
        ∃ it, (search_zoning_chunks ms corpus)[i]? = some it ∧
          it.id = m.id ∧ it.text = sentinelText) := by
  refine ⟨by simp [search_zoning_chunks], ?_, ?_⟩
  · intro i
    simp [search_zoning_chunks, List.getElem?_map]
  · intro i m hm hs
    refine ⟨RItem.mk m.id m.score m.metadata
      (map_id_to_text m.id m.metadata (load_zoning_chunks corpus)), ?_, rfl, hs⟩
    simp [search_zoning_chunks, List.getElem?_map, hm]

/-- Witness for C9: a single match with an unresolvable id is returned
with the sentinel text rather than dropped. -/
theorem search_zoning_chunks_total_witness :
    ∃ it, (search_zoning_chunks [exMatch] [])[0]? = some it ∧
      it.id = some "unrelated" ∧ it.text = sentinelText := by
  exact (search_zoning_chunks_total [exMatch] []).2.2 0 exMatch rfl (by decide)

/-- **C1 (code bug).** `get_traffic_counts_in_area` returns the empty list
for every area bounds and every dataset state, because the loader call is
commented out in the source; the spec-prescribed within-filter, evaluated
on a dataset holding a point strictly inside the Broadway bounds, returns
that record — so the function as shipped can never return a non-empty
list. -/
theorem traffic_counts_always_empty :
    (∀ (bounds : Bounds) (dataset : Option (List TrafficRecord)),
      get_traffic_counts_in_area bounds dataset = [])
    ∧ specTrafficCountsInArea create_manhattan_broadway_bounds (some [insidePoint]) =
        [[("volume", "1200")]]
    ∧ get_traffic_counts_in_area create_manhattan_broadway_bounds (some [insidePoint]) =
        [] := by
  refine ⟨fun _ _ => rfl, ?_, rfl⟩
  have hpred : (decide (create_manhattan_broadway_bounds.min_lon < insidePoint.lon) &&
      decide (insidePoint.lon < create_manhattan_broadway_bounds.max_lon) &&
      decide (create_manhattan_broadway_bounds.min_lat < insidePoint.lat) &&
      decide (insidePoint.lat < create_manhattan_broadway_bounds.max_lat)) = true := by
    norm_num [insidePoint, create_manhattan_broadway_bounds]
  simp [specTrafficCountsInArea, List.filter_cons, hpred, insidePoint]
  norm_num [create_manhattan_broadway_bounds]

/-- **C3.** For every query (and every state of the external
collaborators) the packet's `total_data_points` is the sum of the lengths
of its zoning text-chunk list, its district list and its traffic-location
list; and on the Broadway query the parsed `action` is `"pedestrianize"`
(in particular non-null) whenever the parser's pattern list starts with
the source's first pattern — the later patterns cannot affect it. -/
theorem build_scenario_packet_summary {σ : Type} :
    (∀ (patterns : List (String → Option GD)) (ms : List (PMatch σ))
        (corpus : List (Option ChunkData)) (districts : Option (List DistrictRecord))
        (traffic : Option (List TrafficRecord)) (query : String),
      (build_scenario_packet patterns ms corpus districts traffic query).total_data_points =
        (build_scenario_packet patterns ms corpus districts traffic
            query).relevant_text_chunks.length +
          (build_scenario_packet patterns ms corpus districts traffic
            query).affected_zoning_districts.length +
          (build_scenario_packet patterns ms corpus districts traffic
            query).traffic_count_locations.length)
    ∧ (∀ (rest : List (String → Option GD)) (ms : List (PMatch σ))
        (corpus : List (Option ChunkData)) (districts : Option (List DistrictRecord))
        (traffic : Option (List TrafficRecord)),
      (build_scenario_packet (PATTERN1 :: rest) ms corpus districts traffic
        broadwayQuery).parsed_components.action = some "pedestrianize") := by
  constructor
  · intro patterns ms corpus districts traffic query
    rfl
  · intro rest ms corpus districts traffic
    show (parse_scenario_query (PATTERN1 :: rest) broadwayQuery).action = some "pedestrianize"
    have h1 : PATTERN1 (normalizeWs broadwayQuery) = some broadwayGD := by decide
    have hfm : firstMatch (PATTERN1 :: rest) (normalizeWs broadwayQuery) =
        some broadwayGD := by
      simp [firstMatch, List.findSome?_cons, h1]
    unfold parse_scenario_query
    rw [hfm]
    decide

/-- **C4, counterexample.** With `max_tokens = 10`, `overlap_tokens = 8`
(stride 2) on nine tokens the code produces five windows of 9, 7, 5, 3, 1
tokens: windows 0 and 1 are consecutive and neither is the final window,
yet they share only the 7 tokens `t2 … t8` — not `overlap = 8` — so the
claim's unqualified sharing property is false of the code. -/
theorem chunkText_window_properties_counterexample :
    stepN 10 8 = 2
    ∧ chunkWords ["t0", "t1", "t2", "t3", "t4", "t5", "t6", "t7", "t8"] 10 8 =
        [["t0", "t1", "t2", "t3", "t4", "t5", "t6", "t7", "t8"],
          ["t2", "t3", "t4", "t5", "t6", "t7", "t8"],
          ["t4", "t5", "t6", "t7", "t8"],
          ["t6", "t7", "t8"],
          ["t8"]]
    ∧ (["t0", "t1", "t2", "t3", "t4", "t5", "t6", "t7", "t8"] :
        List String).drop (stepN 10 8) =
        ["t2", "t3", "t4", "t5", "t6", "t7", "t8"]
    ∧ ((["t2", "t3", "t4", "t5", "t6", "t7", "t8"] : List String).length = 7
      ∧ (7 : Nat) ≠ (8 : Int).toNat) := by
  refine ⟨by decide, ?_, by decide, by decide, by decide⟩
  simp [chunkWords, chunkLoop, pySlice, pyIdx, stepN]
